import Mathlib

/-!
Shallow embedding of the kernel startup path of this repository
(`src/kern/src/startup.rs`): image validation in `start_kernel`, the
boot-time bump allocator `BumpPointer` with its `gimme_n`/`gimme`
primitives, construction of the runtime task table in
`safe_start_kernel`, and the handoff (`task::select` call plus
`switch_to_user`).

Addresses and sizes in the descriptors are 32-bit machine integers
(`u32`); we model them as `Nat` together with explicit `% 2^32`
reductions exactly where the Rust code performs wrapping arithmetic
(`wrapping_add`, `wrapping_sub`) or truncating casts (`as u8`).
Fallible steps (assertion failures, slice-bound panics, integer
underflow panics) are modelled with `Option`: `none` is an aborted
boot.
-/

namespace Startup

/-- 2^32, the modulus of `u32` arithmetic. -/
def U32 : Nat := 4294967296

/-- Rust `u32::wrapping_add` on values below `U32`. -/
def wadd (a b : Nat) : Nat := (a + b) % U32

/-- Rust `u32::wrapping_sub` on values below `U32`
(`a.wrapping_sub b = (a + 2^32 - b) mod 2^32`). -/
def wsub (a b : Nat) : Nat := (a + U32 - b) % U32

/-- Modelled from the spec: the region attribute bitset of the `app`
module (not under `src/`): READ, WRITE, EXECUTE flags plus a reserved
range, modelled as one `reservedBits` flag ("any reserved bit set"). -/
structure RegionAttributes where
  read : Bool
  write : Bool
  execute : Bool
  reservedBits : Bool
deriving DecidableEq

instance : Inhabited RegionAttributes := ⟨⟨false, false, false, false⟩⟩

/-- Modelled from the spec: the task flag bitset of the `app` module
(not under `src/`): a "start at boot" flag plus reserved bits. -/
structure TaskFlags where
  start_at_boot : Bool
  reservedBits : Bool
deriving DecidableEq

instance : Inhabited TaskFlags := ⟨⟨false, false⟩⟩

/-- Modelled from the spec: `app::RegionDesc` (not under `src/`): base
address, size in bytes, attributes, and a reserved-must-be-zero field.
`base` and `size` are `u32` values (kept `< U32` by `Image.wf`). -/
structure RegionDesc where
  base : Nat
  size : Nat
  attributes : RegionAttributes
  reserved_zero : Nat
deriving DecidableEq

instance : Inhabited RegionDesc := ⟨⟨0, 0, default, 0⟩⟩

/-- Modelled from the spec: the compile-time "regions per task"
constant `app::REGIONS_PER_TASK` (not under `src/`); the spec fixes
only that it is a compile-time constant, the concrete value 8 is the
fixed length of each task's region-index array. -/
def REGIONS_PER_TASK : Nat := 8

/-- Modelled from the spec: `app::TaskDesc` (not under `src/`):
priority (a small unsigned value), flags, entry point, initial stack
pointer, and the fixed-length array of `u8` region indices
(`regions.length = REGIONS_PER_TASK`, enforced by `Image.wf`). -/
structure TaskDesc where
  priority : Nat
  flags : TaskFlags
  entry_point : Nat
  initial_stack : Nat
  regions : List Nat
deriving DecidableEq

instance : Inhabited TaskDesc := ⟨⟨0, default, 0, 0, List.replicate REGIONS_PER_TASK 0⟩⟩

/-- Modelled from the spec: `app::Interrupt` (not under `src/`): an
IRQ identifier and the target task index (`u32`). -/
structure Interrupt where
  irq : Nat
  task : Nat
deriving DecidableEq

/-- Modelled from the spec: the compile-time magic constant
`app::CURRENT_APP_MAGIC` (not under `src/`); the concrete value is
irrelevant to every claim, only equality with the header field is. -/
def CURRENT_APP_MAGIC : Nat := 475142165

/-- A parsed application image. `start_kernel` builds the three
descriptor slices with `from_raw_parts` using the header counts, so
the slice lengths equal `task_count` / `region_count` / `irq_count`
by construction; we therefore carry the lists themselves and use
their lengths where the Rust code reads the header counts. -/
structure Image where
  magic : Nat
  fault_notification : Nat
  zeroed_expansion_space : List Nat
  tasks : List TaskDesc
  regions : List RegionDesc
  interrupts : List Interrupt
deriving DecidableEq

/-- Machine-integer well-formedness of an image: every `u32` field is
below `U32`, region indices are `u8` values, and each task's
region-index array has the type-enforced length `REGIONS_PER_TASK`.
These facts are enforced by the Rust types of the `app` structures,
not by runtime checks. -/
def Image.wf (img : Image) : Prop :=
  (∀ r ∈ img.regions, r.base < U32 ∧ r.size < U32) ∧
  (∀ t ∈ img.tasks,
    t.entry_point < U32 ∧ t.initial_stack < U32 ∧
    t.regions.length = REGIONS_PER_TASK ∧ ∀ i ∈ t.regions, i < 256)

instance (img : Image) : Decidable img.wf := by
  unfold Image.wf; infer_instance

/-- The base+size wrap check of `start_kernel` (startup.rs line 67):
`region.base.wrapping_add(region.size) >= region.base`. -/
def region_wrap_ok (r : RegionDesc) : Bool :=
  decide (r.base ≤ wadd r.base r.size)

/-- Per-region validation (startup.rs lines 61-70): no reserved
attributes, no base+size wrap, reserved word zero. -/
def validate_region (r : RegionDesc) : Bool :=
  !r.attributes.reservedBits && region_wrap_ok r &&
    decide (r.reserved_zero = 0)

/-- One iteration of the entry-point scan (startup.rs lines 81-85):
the region referenced by `idx` contains the entry point in wrapping
arithmetic and is executable. Rust indexes `regions[idx]` only after
asserting `idx` valid; `getD` with the default is never reached by a
passing validation, because the index-bound conjunct of
`validate_task` fails first. -/
def entry_region_ok (regions : List RegionDesc) (t : TaskDesc) (idx : Nat) : Bool :=
  let r := regions.getD idx default
  decide (wsub t.entry_point r.base < r.size) && r.attributes.execute

/-- One iteration of the stack-pointer scan (startup.rs lines 86-95):
compared with `<=` because the stack may start just off the end. -/
def stack_region_ok (regions : List RegionDesc) (t : TaskDesc) (idx : Nat) : Bool :=
  let r := regions.getD idx default
  decide (wsub t.initial_stack r.base ≤ r.size) &&
    (r.attributes.read && r.attributes.write)

/-- Per-task validation (startup.rs lines 73-100): no reserved flags;
every region index below `region_count as u8` (the `u32` count
truncated to `u8` by the cast on line 79 — hence `% 256`); the
entry-point flag and the stack-pointer flag both end up set. The
Rust loop accumulates the two flags with OR, which is `List.any`. -/
def validate_task (regions : List RegionDesc) (t : TaskDesc) : Bool :=
  !t.flags.reservedBits &&
  t.regions.all (fun idx => decide (idx < regions.length % 256)) &&
  t.regions.any (entry_region_ok regions t) &&
  t.regions.any (stack_region_ok regions t)

/-- The whole validation phase of `start_kernel` (startup.rs lines
32-106): header magic, region count bounded by the 8-bit index
domain, zeroed expansion space (12 bytes), then regions, tasks and
interrupts. A Rust `assert!` failure aborts the boot; the boolean is
`true` exactly when no assertion fires. -/
def validate (img : Image) : Bool :=
  decide (img.magic = CURRENT_APP_MAGIC) &&
  decide (img.regions.length < 256) &&
  decide (img.zeroed_expansion_space = List.replicate 12 0) &&
  img.regions.all validate_region &&
  img.tasks.all (validate_task img.regions) &&
  img.interrupts.all (fun irq => decide (irq.task < img.tasks.length))

/-! ## The bump allocator

`BumpPointer` holds the free portion of the scratch buffer as a byte
slice; we model that slice by its start address `pos` and one-past-end
address `limit`. `gimme_n` (startup.rs lines 186-216) first splits off
`align_offset` padding bytes, then `n * size_of::<T>()` payload bytes;
either `split_at_mut` panics — aborting boot — when the free slice is
too short. Type `T` enters the model through its `size` and `align`
in bytes. -/

structure BumpPointer where
  pos : Nat
  limit : Nat
deriving DecidableEq

/-- Rust `<*const u8>::align_offset`: bytes of padding needed to bring
`pos` up to `align` (for the power-of-two alignments of real types
this is the exact distance to the next multiple of `align`). -/
def align_offset (pos align : Nat) : Nat :=
  if align = 0 then 0 else (align - pos % align) % align

/-- `BumpPointer::gimme_n` (startup.rs lines 186-216), address part:
returns the base address of the allocated block and the shrunken
allocator, or `none` when a `split_at_mut` bound fails (boot abort). -/
def BumpPointer.gimme_n (st : BumpPointer) (n size align : Nat) :
    Option (Nat × BumpPointer) :=
  let free_len := st.limit - st.pos
  let d := align_offset st.pos align
  if d ≤ free_len then
    if n * size ≤ free_len - d then
      some (st.pos + d, ⟨st.pos + d + n * size, st.limit⟩)
    else none
  else none

/-- `BumpPointer::gimme` (startup.rs lines 219-243): the single-value
variant; same two splits with payload `size_of::<T>()`. -/
def BumpPointer.gimme (st : BumpPointer) (size align : Nat) :
    Option (Nat × BumpPointer) :=
  let free_len := st.limit - st.pos
  let d := align_offset st.pos align
  if d ≤ free_len then
    if size ≤ free_len - d then
      some (st.pos + d, ⟨st.pos + d + size, st.limit⟩)
    else none
  else none

/-- Typed memory holding values of `T` keyed by element base address. -/
def Mem (T : Type) := Nat → Option T

/-- Update one cell of a typed memory. -/
def memUpdate {T : Type} (m : Mem T) (a : Nat) (v : T) : Mem T :=
  fun x => if x = a then some v else m x

/-- The initialization loop of `gimme_n` (startup.rs lines 210-214):
`for i in 0..n { allocated.add(i).write(init(i)) }`, writing element
`i` at address `base + i * size`. -/
def writeElems {T : Type} (base size : Nat) (init : Nat → T) (n : Nat)
    (mem : Mem T) : Mem T :=
  (List.range n).foldl (fun m i => memUpdate m (base + i * size) (init i)) mem

/-- `gimme_n` together with the values its initialization loop
produces: on success the returned slice holds `init 0, …, init (n-1)`
in order (this is exactly what `writeElems` leaves at the element
addresses; see the allocator theorems below). -/
def BumpPointer.gimme_n_init {T : Type} (st : BumpPointer)
    (n size align : Nat) (init : Nat → T) :
    Option (Nat × List T × BumpPointer) :=
  match st.gimme_n n size align with
  | none => none
  | some (a, st') => some (a, (List.range n).map init, st')

/-! ## Runtime task construction (`safe_start_kernel`) -/

/-- Modelled from the spec: `abi::SchedState` (not under `src/`): the
scheduling half of the task state; only `Runnable` versus the default
non-runnable state matters here. -/
inductive SchedState where
  | Stopped : SchedState
  | Runnable : SchedState
deriving DecidableEq

/-- Modelled from the spec: `abi::TaskState` (not under `src/`): the
two-level health/scheduling state; its `default` is the non-runnable
`Healthy Stopped`. -/
inductive TaskState where
  | Healthy : SchedState → TaskState
  | Faulted : TaskState
deriving DecidableEq

instance : Inhabited TaskState := ⟨.Healthy .Stopped⟩

/-- The runtime `Task` record built by `safe_start_kernel` (startup.rs
lines 125-141). Architecture-specific saved state and the timer are
default-initialized opaque values, irrelevant to every claim, and are
omitted; `region_table` stores the referenced `RegionDesc` values (a
Rust `&RegionDesc` reference is modelled by the descriptor it
denotes). The priority field is `abi::Priority(desc.priority as u8)`,
a truncating cast, hence `% 256`. -/
structure Task where
  priority : Nat
  state : TaskState
  descriptor : TaskDesc
  generation : Nat
  notification_mask : Nat
  notifications : Nat
  region_table : List RegionDesc
deriving DecidableEq

instance : Inhabited Task :=
  ⟨⟨0, default, default, 0, 0, 0, []⟩⟩

/-- The task-table initializer closure of `safe_start_kernel`
(startup.rs lines 123-142): the `Task` built for index `i`. -/
def mkTaskInit (task_descs : List TaskDesc) (i : Nat) : Task :=
  let task_desc := task_descs.getD i default
  { priority := task_desc.priority % 256,
    state := if task_desc.flags.start_at_boot then
        TaskState.Healthy SchedState.Runnable
      else
        default,
    descriptor := task_desc,
    generation := 0,
    notification_mask := 0,
    notifications := 0,
    region_table := [] }

/-- The region-table initializer closure (startup.rs lines 147-149):
element `i` is `&region_descs[task_desc.regions[i]]`. -/
def regionTableInit (region_descs : List RegionDesc) (task_desc : TaskDesc)
    (i : Nat) : RegionDesc :=
  region_descs.getD (task_desc.regions.getD i 0) default

/-- The second loop of `safe_start_kernel` (startup.rs lines 146-153):
walk the zipped task/descriptor pairs, allocate each task's region
table from the bump allocator, and fill the `region_table` field.
`sizeRT`/`alignRT` are `size_of`/`align_of` of a `&RegionDesc`. -/
def resolveLoop (region_descs : List RegionDesc) (sizeRT alignRT : Nat) :
    List (Task × TaskDesc) → BumpPointer → Option (List Task × BumpPointer)
  | [], st => some ([], st)
  | (t, task_desc) :: rest, st =>
    match st.gimme_n_init REGIONS_PER_TASK sizeRT alignRT
        (regionTableInit region_descs task_desc) with
    | none => none
    | some (_, rt, st') =>
      match resolveLoop region_descs sizeRT alignRT rest st' with
      | none => none
      | some (ts, st'') => some ({ t with region_table := rt } :: ts, st'')

/-- `safe_start_kernel` (startup.rs lines 112-175) up to the handoff:
allocate the task table (`gimme_n(task_count, …)`), then resolve each
task's region table. `sizeTask`/`alignTask` are `size_of`/`align_of`
of `Task`. Publication of the tables and of the fault notification
are side effects with no bearing on the claims and are not modelled. -/
def safe_start_kernel (img : Image) (sizeTask alignTask sizeRT alignRT : Nat)
    (st : BumpPointer) : Option (List Task × BumpPointer) :=
  match st.gimme_n_init img.tasks.length sizeTask alignTask
      (mkTaskInit img.tasks) with
  | none => none
  | some (_, tasks0, st') =>
    resolveLoop img.regions sizeRT alignRT (tasks0.zip img.tasks) st'

/-- `start_kernel` (startup.rs lines 18-110): run every validation
assertion, then — only if all pass — `safe_start_kernel`. All bump
allocation happens inside `safe_start_kernel`, so an image that fails
validation aborts (`none`) before any allocation occurs and no task
or region table is ever constructed. -/
def start_kernel (img : Image) (sizeTask alignTask sizeRT alignRT : Nat)
    (st : BumpPointer) : Option (List Task × BumpPointer) :=
  if validate img then
    safe_start_kernel img sizeTask alignTask sizeRT alignRT st
  else none

/-! ## Handoff -/

/-- Observable outcome of the handoff (startup.rs lines 170-181):
the arguments of every `task::select` call made (as last-run
indices), the chosen index, and the task that memory protection is
applied to and that is started in user mode. -/
structure HandoffResult where
  select_args : List Nat
  first_task_index : Nat
  protected_task : Task
  started_task : Task
deriving DecidableEq

/-- The handoff tail of `safe_start_kernel` plus `switch_to_user`
(startup.rs lines 170-181): call `task::select(tasks.len() - 1,
tasks)` exactly once, then apply memory protection to
`tasks[first_task_index]` and start it. `tasks.len() - 1` is a Rust
`usize` subtraction, which underflows (panics) when the table is
empty; the subsequent `tasks[first_task_index]` indexing panics when
the selected index is out of bounds. Both aborts are `none`. -/
def handoff (select : Nat → List Task → Nat) (tasks : List Task) :
    Option HandoffResult :=
  if tasks.length = 0 then none
  else
    let first_task_index := select (tasks.length - 1) tasks
    if first_task_index < tasks.length then
      some ⟨[tasks.length - 1], first_task_index,
        tasks.getD first_task_index default,
        tasks.getD first_task_index default⟩
    else none

/-- The whole boot path: validation, table construction, handoff. -/
def full_boot (img : Image) (sizeTask alignTask sizeRT alignRT : Nat)
    (st : BumpPointer) (select : Nat → List Task → Nat) :
    Option HandoffResult :=
  match start_kernel img sizeTask alignTask sizeRT alignRT st with
  | none => none
  | some (tasks, _) => handoff select tasks

/-! ## Arithmetic facts about the wrapping operations -/

/-- The wrap check `base <= base.wrapping_add(size)` holds exactly
when `base + size` does not exceed the `u32` range. -/
theorem wadd_ge_iff (b s : Nat) (hb : b < U32) (hs : s < U32) :
    (b ≤ wadd b s) ↔ b + s < U32 := by
  unfold wadd U32 at *
  rcases lt_or_ge (b + s) 4294967296 with h | h
  · rw [Nat.mod_eq_of_lt h]; omega
  · have h2 : (b + s) % 4294967296 = b + s - 4294967296 := by
      rw [Nat.mod_eq_sub_mod h, Nat.mod_eq_of_lt (by omega)]
    omega

/-- For a non-wrapping region, `e.wrapping_sub(b) < s` is exactly the
strict interval membership `b ≤ e < b + s`. -/
theorem wsub_lt_iff (e b s : Nat) (he : e < U32) (hb : b < U32)
    (hbs : b + s < U32) :
    (wsub e b < s) ↔ (b ≤ e ∧ e < b + s) := by
  unfold wsub U32 at *
  rcases le_or_lt b e with h | h
  · have h1 : e + 4294967296 - b = (e - b) + 4294967296 := by omega
    rw [h1, Nat.add_mod_right, Nat.mod_eq_of_lt (by omega)]
    omega
  · rw [Nat.mod_eq_of_lt (by omega)]
    omega

/-- For a non-wrapping region, `p.wrapping_sub(b) ≤ s` is exactly the
inclusive interval membership `b ≤ p ≤ b + s`. -/
theorem wsub_le_iff (p b s : Nat) (hp : p < U32) (hb : b < U32)
    (hbs : b + s < U32) :
    (wsub p b ≤ s) ↔ (b ≤ p ∧ p ≤ b + s) := by
  unfold wsub U32 at *
  rcases le_or_lt b p with h | h
  · have h1 : p + 4294967296 - b = (p - b) + 4294967296 := by omega
    rw [h1, Nat.add_mod_right, Nat.mod_eq_of_lt (by omega)]
    omega
  · rw [Nat.mod_eq_of_lt (by omega)]
    omega

/-! ## Characterizations of the construction pipeline -/

/-- A successful `gimme_n_init` returns exactly the initializer values
in index order, around a successful address-level `gimme_n`. -/
theorem gimme_n_init_some {T : Type} {st : BumpPointer} {n size align : Nat}
    {init : Nat → T} {a : Nat} {vals : List T} {st' : BumpPointer}
    (h : st.gimme_n_init n size align init = some (a, vals, st')) :
    vals = (List.range n).map init ∧ st.gimme_n n size align = some (a, st') := by
  unfold BumpPointer.gimme_n_init at h
  cases hg : st.gimme_n n size align with
  | none => rw [hg] at h; simp at h
  | some p =>
    obtain ⟨a0, st0⟩ := p
    rw [hg] at h
    simp only [Option.some.injEq, Prod.mk.injEq] at h
    obtain ⟨ha, hv, hs⟩ := h
    subst ha
    subst hs
    exact ⟨hv.symm, rfl⟩

/-- The task a `resolveLoop` iteration produces from one
task/descriptor pair. -/
def resolvedTask (region_descs : List RegionDesc) (p : Task × TaskDesc) : Task :=
  { p.1 with
    region_table := (List.range REGIONS_PER_TASK).map
      (regionTableInit region_descs p.2) }

/-- A successful `resolveLoop` maps `resolvedTask` over its input
pairs: each produced task is its input task with the region table
filled from the descriptor's region-index array. -/
theorem resolveLoop_eq (region_descs : List RegionDesc) (sizeRT alignRT : Nat) :
    ∀ (pairs : List (Task × TaskDesc)) (st : BumpPointer) (ts : List Task)
      (st' : BumpPointer),
      resolveLoop region_descs sizeRT alignRT pairs st = some (ts, st') →
      ts = pairs.map (resolvedTask region_descs) := by
  intro pairs
  induction pairs with
  | nil =>
    intro st ts st' h
    simp only [resolveLoop, Option.some.injEq, Prod.mk.injEq] at h
    simp [← h.1]
  | cons p rest ih =>
    intro st ts st' h
    obtain ⟨t, td⟩ := p
    unfold resolveLoop at h
    cases hg : BumpPointer.gimme_n_init st REGIONS_PER_TASK sizeRT alignRT
        (regionTableInit region_descs td) with
    | none => rw [hg] at h; simp at h
    | some q =>
      obtain ⟨a, rt, st1⟩ := q
      rw [hg] at h
      simp only at h
      obtain ⟨hrt, -⟩ := gimme_n_init_some hg
      cases hr : resolveLoop region_descs sizeRT alignRT rest st1 with
      | none => rw [hr] at h; simp at h
      | some r =>
        obtain ⟨ts1, st2⟩ := r
        rw [hr] at h
        simp only [Option.some.injEq, Prod.mk.injEq] at h
        obtain ⟨h1, -⟩ := h
        rw [← h1, List.map_cons]
        exact congrArg₂ _ (by rw [hrt]; rfl) (ih st1 ts1 st2 hr)

/-- The initialization loop leaves `init i` in slot `i`: reading back
element address `base + i * size` after all `n` writes yields exactly
the initializer's value for `i` (element addresses are distinct since
`0 < size`). -/
theorem writeElems_get {T : Type} (base size : Nat) (init : Nat → T)
    (mem : Mem T) (hsize : 0 < size) :
    ∀ (n i : Nat), i < n →
      writeElems base size init n mem (base + i * size) = some (init i) := by
  intro n
  induction n with
  | zero => intro i h; exact absurd h (Nat.not_lt_zero i)
  | succ m ih =>
    intro i h
    unfold writeElems
    rw [List.range_succ, List.foldl_append, List.foldl_cons, List.foldl_nil]
    rcases Nat.lt_or_ge i m with hi | hi
    · have hlt : i * size < m * size := mul_lt_mul_of_pos_right hi hsize
      have hne : base + i * size ≠ base + m * size := by omega
      simp only [memUpdate]
      rw [if_neg hne]
      exact ih i hi
    · have hi2 : i = m := by omega
      subst hi2
      simp [memUpdate]

/-- The free slice `b` is a suffix of the free slice `a` (same end of
the scratch buffer, start moved forward or unchanged). -/
def free_suffix (a b : BumpPointer) : Prop :=
  a.pos ≤ b.pos ∧ b.limit = a.limit

/-- Strict suffix: at least one byte of `a`'s free slice was consumed. -/
def free_strict_suffix (a b : BumpPointer) : Prop :=
  a.pos < b.pos ∧ b.limit = a.limit

instance (a b : BumpPointer) : Decidable (free_suffix a b) := by
  unfold free_suffix; infer_instance

instance (a b : BumpPointer) : Decidable (free_strict_suffix a b) := by
  unfold free_strict_suffix; infer_instance

/-- Success criterion of `gimme_n` at the `Nat` level: both
`split_at_mut` calls stay in bounds exactly when padding plus payload
fits in the free slice. -/
theorem gimme_n_isSome (st : BumpPointer) (n size align : Nat) :
    (st.gimme_n n size align).isSome ↔
      align_offset st.pos align + n * size ≤ st.limit - st.pos := by
  simp only [BumpPointer.gimme_n]
  generalize n * size = ns
  split_ifs with h1 h2 <;> simp <;> omega

/-- C4: an allocation of `n` elements of a type with the given size
succeeds exactly when the free space left after alignment padding is
at least `n * size`; on success the block stays inside the scratch
buffer, the initialization loop leaves `init i` as element `i`, and
the elements lie contiguously at ascending addresses
`a, a + size, …, a + (n-1) * size`. -/
theorem claim_C4 {T : Type} (st : BumpPointer) (n size align : Nat)
    (init : Nat → T) (mem : Mem T) (hst : st.pos ≤ st.limit)
    (hsize : 0 < size) :
    ((st.gimme_n n size align).isSome ↔
      ((n * size : Nat) : Int) ≤ (st.limit : Int) - (st.pos : Int) -
        (align_offset st.pos align : Int)) ∧
    (∀ a st', st.gimme_n n size align = some (a, st') →
      a + n * size ≤ st.limit ∧
      (∀ i, i < n →
        writeElems a size init n mem (a + i * size) = some (init i)) ∧
      (∀ i j, i < j → j < n → a + i * size < a + j * size)) := by
  constructor
  · rw [gimme_n_isSome]
    omega
  · intro a st' h
    refine ⟨?_, ?_, ?_⟩
    · revert h
      simp only [BumpPointer.gimme_n]
      generalize align_offset st.pos align = d
      generalize hns : n * size = ns
      split
      · split
        · intro h
          simp only [Option.some.injEq, Prod.mk.injEq] at h
          rename_i h1 h2
          omega
        · intro h; simp at h
      · intro h; simp at h
    · intro i hi
      exact writeElems_get a size init mem hsize n i hi
    · intro i j hij hj
      have : i * size < j * size := mul_lt_mul_of_pos_right hij hsize
      omega

/-- C4 witness: a concrete two-element allocation of size-4 elements
from a 16-byte scratch buffer. -/
theorem claim_C4_witness :
    ((0 : Nat) ≤ 16 ∧ (0 : Nat) < 4) ∧
    ((BumpPointer.gimme_n ⟨0, 16⟩ 2 4 4).isSome ↔
      ((2 * 4 : Nat) : Int) ≤ (16 : Int) - (0 : Int) -
        (align_offset 0 4 : Int)) ∧
    (∀ a st', BumpPointer.gimme_n ⟨0, 16⟩ 2 4 4 = some (a, st') →
      a + 2 * 4 ≤ 16 ∧
      (∀ i, i < 2 →
        writeElems a 4 (fun k => k + 10) 2 (fun _ => none) (a + i * 4) =
          some (i + 10)) ∧
      (∀ i j, i < j → j < 2 → a + i * 4 < a + j * 4)) :=
  ⟨⟨by decide, by decide⟩,
    claim_C4 ⟨0, 16⟩ 2 4 4 (fun k => k + 10) (fun _ => none)
      (by decide) (by decide)⟩

/-- C10 counterexample: a zero-element allocation succeeds while
consuming no bytes, so the free slice afterwards is not a *strict*
suffix of the free slice before, refuting the claim as stated. -/
theorem claim_C10_counterexample :
    BumpPointer.gimme_n ⟨0, 16⟩ 0 4 1 = some (0, ⟨0, 16⟩) ∧
    ¬ free_strict_suffix ⟨0, 16⟩ ⟨0, 16⟩ := by
  decide

/-- C10 (amended): after every successful `gimme_n` or `gimme` the
free slice is a suffix of the previous free slice — strict whenever
the call consumed any padding or payload byte — the returned block
lies between the old and the new free start (hence is disjoint from
the remaining free slice), and it is disjoint from every block lying
entirely below the old free start, which covers all previously
returned blocks. -/
theorem claim_C10 (st : BumpPointer) (hst : st.pos ≤ st.limit) :
    (∀ n size align a st', st.gimme_n n size align = some (a, st') →
      free_suffix st st' ∧
      (0 < align_offset st.pos align + n * size → free_strict_suffix st st') ∧
      st.pos ≤ a ∧ a + n * size ≤ st'.pos ∧ st'.pos ≤ st.limit ∧
      (∀ b l, b + l ≤ st.pos → b + l ≤ a ∨ a + n * size ≤ b)) ∧
    (∀ size align a st', st.gimme size align = some (a, st') →
      free_suffix st st' ∧
      (0 < align_offset st.pos align + size → free_strict_suffix st st') ∧
      st.pos ≤ a ∧ a + size ≤ st'.pos ∧ st'.pos ≤ st.limit ∧
      (∀ b l, b + l ≤ st.pos → b + l ≤ a ∨ a + size ≤ b)) := by
  constructor
  · intro n size align a st' h
    revert h
    simp only [BumpPointer.gimme_n]
    generalize align_offset st.pos align = d
    generalize n * size = ns
    split
    · split
      · intro h
        simp only [Option.some.injEq, Prod.mk.injEq] at h
        obtain ⟨ha, rfl⟩ := h
        subst ha
        rename_i h1 h2
        simp only [free_suffix, free_strict_suffix]
        refine ⟨⟨by omega, by trivial⟩, fun hpos => ⟨by omega, by trivial⟩,
          by omega, by omega, by omega, fun b l hb => Or.inl (by omega)⟩
      · intro h; simp at h
    · intro h; simp at h
  · intro size align a st' h
    revert h
    simp only [BumpPointer.gimme]
    generalize align_offset st.pos align = d
    split
    · split
      · intro h
        simp only [Option.some.injEq, Prod.mk.injEq] at h
        obtain ⟨ha, rfl⟩ := h
        subst ha
        rename_i h1 h2
        simp only [free_suffix, free_strict_suffix]
        refine ⟨⟨by omega, by trivial⟩, fun hpos => ⟨by omega, by trivial⟩,
          by omega, by omega, by omega, fun b l hb => Or.inl (by omega)⟩
      · intro h; simp at h
    · intro h; simp at h

/-- C10 witness: a concrete 8-byte allocation from a 16-byte scratch
buffer shrinks the free slice from `[0,16)` to `[8,16)`. -/
theorem claim_C10_witness :
    (0 : Nat) ≤ 16 ∧ free_suffix ⟨0, 16⟩ ⟨8, 16⟩ :=
  ⟨by decide,
    ((claim_C10 ⟨0, 16⟩ (by decide)).1 2 4 4 0 ⟨8, 16⟩ (by decide)).1⟩

/-- C5: a region whose exact-integer `base + size` exceeds the
largest `u32` fails the wrap check, so validation of any image
containing it fails regardless of every other region; a region whose
`base + size` stays in range passes the wrap check. -/
theorem claim_C5 (img : Image) (r : RegionDesc) (hb : r.base < U32)
    (hs : r.size < U32) :
    (U32 ≤ r.base + r.size → r ∈ img.regions → validate img = false) ∧
    (r.base + r.size < U32 → region_wrap_ok r = true) := by
  constructor
  · intro hover hmem
    cases hv : validate img with
    | false => rfl
    | true =>
      exfalso
      simp only [validate, Bool.and_eq_true, List.all_eq_true] at hv
      obtain ⟨⟨⟨⟨⟨-, -⟩, -⟩, hregs⟩, -⟩, -⟩ := hv
      have hr := hregs r hmem
      simp only [validate_region, Bool.and_eq_true] at hr
      obtain ⟨⟨-, hwrap⟩, -⟩ := hr
      simp only [region_wrap_ok, decide_eq_true_eq] at hwrap
      rw [wadd_ge_iff r.base r.size hb hs] at hwrap
      omega
  · intro hlt
    simp only [region_wrap_ok, decide_eq_true_eq]
    exact (wadd_ge_iff r.base r.size hb hs).mpr hlt

/-- C5 witness: the region `[4294967295, +1]` wraps and poisons an
otherwise clean image; the region `[100, +50]` passes the check. -/
theorem claim_C5_witness :
    ((4294967295 : Nat) < U32 ∧ (1 : Nat) < U32 ∧
      validate ⟨CURRENT_APP_MAGIC, 0, List.replicate 12 0, [],
        [⟨4294967295, 1, default, 0⟩], []⟩ = false) ∧
    ((100 : Nat) < U32 ∧ (50 : Nat) < U32 ∧
      region_wrap_ok ⟨100, 50, default, 0⟩ = true) :=
  ⟨⟨by decide, by decide,
    (claim_C5 ⟨CURRENT_APP_MAGIC, 0, List.replicate 12 0, [],
        [⟨4294967295, 1, default, 0⟩], []⟩
      ⟨4294967295, 1, default, 0⟩ (by decide) (by decide)).1
      (by decide) (by decide)⟩,
   ⟨by decide, by decide,
    (claim_C5 ⟨CURRENT_APP_MAGIC, 0, List.replicate 12 0, [], [], []⟩
      ⟨100, 50, default, 0⟩ (by decide) (by decide)).2 (by decide)⟩⟩

/-- The entry-point half of claim C1 in exact integer arithmetic:
some assigned region contains the entry point strictly inside
`[base, base + size)` and has EXECUTE set. -/
def entry_point_covered (img : Image) (t : TaskDesc) : Prop :=
  ∃ idx ∈ t.regions, idx < img.regions.length ∧
    (img.regions.getD idx default).base ≤ t.entry_point ∧
    t.entry_point <
      (img.regions.getD idx default).base + (img.regions.getD idx default).size ∧
    (img.regions.getD idx default).attributes.execute = true

/-- The stack half of claim C1 in exact integer arithmetic: some
assigned region contains the initial stack pointer in the inclusive
range `[base, base + size]` and has READ and WRITE set. -/
def stack_covered (img : Image) (t : TaskDesc) : Prop :=
  ∃ idx ∈ t.regions, idx < img.regions.length ∧
    (img.regions.getD idx default).base ≤ t.initial_stack ∧
    t.initial_stack ≤
      (img.regions.getD idx default).base + (img.regions.getD idx default).size ∧
    (img.regions.getD idx default).attributes.read = true ∧
    (img.regions.getD idx default).attributes.write = true

/-- C1: validation succeeds only if every task has an executable
assigned region strictly containing its entry point and a read-write
assigned region containing its stack pointer inclusively; and an image
with a task violating either condition makes `start_kernel` abort
unconditionally (before constructing anything). -/
theorem claim_C1 (img : Image) (hwf : img.wf) :
    (validate img = true →
      ∀ t ∈ img.tasks, entry_point_covered img t ∧ stack_covered img t) ∧
    (∀ sizeTask alignTask sizeRT alignRT st,
      (∃ t ∈ img.tasks, ¬(entry_point_covered img t ∧ stack_covered img t)) →
      start_kernel img sizeTask alignTask sizeRT alignRT st = none) := by
  have main : validate img = true →
      ∀ t ∈ img.tasks, entry_point_covered img t ∧ stack_covered img t := by
    intro hv t ht
    simp only [validate, Bool.and_eq_true, List.all_eq_true] at hv
    obtain ⟨⟨⟨⟨⟨-, hcount⟩, -⟩, hregs⟩, htasks⟩, -⟩ := hv
    rw [decide_eq_true_eq] at hcount
    have hvt := htasks t ht
    simp only [validate_task, Bool.and_eq_true, List.all_eq_true,
      List.any_eq_true] at hvt
    obtain ⟨⟨⟨-, hidx⟩, hent⟩, hstk⟩ := hvt
    have hmod : img.regions.length % 256 = img.regions.length :=
      Nat.mod_eq_of_lt hcount
    obtain ⟨hte, hts, -, -⟩ := hwf.2 t ht
    constructor
    · obtain ⟨idx, hmem, hok⟩ := hent
      have hlt : idx < img.regions.length := by
        have := hidx idx hmem
        rw [decide_eq_true_eq, hmod] at this
        exact this
      have hrmem : img.regions.getD idx default ∈ img.regions := by
        rw [List.getD_eq_getElem img.regions default hlt]
        exact List.getElem_mem hlt
      obtain ⟨hrb, hrs⟩ := hwf.1 _ hrmem
      have hrv := hregs _ hrmem
      simp only [validate_region, Bool.and_eq_true] at hrv
      obtain ⟨⟨-, hwrap⟩, -⟩ := hrv
      simp only [region_wrap_ok, decide_eq_true_eq] at hwrap
      rw [wadd_ge_iff _ _ hrb hrs] at hwrap
      simp only [entry_region_ok, Bool.and_eq_true, decide_eq_true_eq] at hok
      obtain ⟨hsub, hexec⟩ := hok
      rw [wsub_lt_iff _ _ _ hte hrb hwrap] at hsub
      exact ⟨idx, hmem, hlt, hsub.1, hsub.2, hexec⟩
    · obtain ⟨idx, hmem, hok⟩ := hstk
      have hlt : idx < img.regions.length := by
        have := hidx idx hmem
        rw [decide_eq_true_eq, hmod] at this
        exact this
      have hrmem : img.regions.getD idx default ∈ img.regions := by
        rw [List.getD_eq_getElem img.regions default hlt]
        exact List.getElem_mem hlt
      obtain ⟨hrb, hrs⟩ := hwf.1 _ hrmem
      have hrv := hregs _ hrmem
      simp only [validate_region, Bool.and_eq_true] at hrv
      obtain ⟨⟨-, hwrap⟩, -⟩ := hrv
      simp only [region_wrap_ok, decide_eq_true_eq] at hwrap
      rw [wadd_ge_iff _ _ hrb hrs] at hwrap
      simp only [stack_region_ok, Bool.and_eq_true, decide_eq_true_eq] at hok
      obtain ⟨hsub, hrd, hwr⟩ := hok
      rw [wsub_le_iff _ _ _ hts hrb hwrap] at hsub
      exact ⟨idx, hmem, hlt, hsub.1, hsub.2, hrd, hwr⟩
  refine ⟨main, ?_⟩
  intro sizeTask alignTask sizeRT alignRT st ⟨t, ht, hbad⟩
  cases hv : validate img with
  | false => simp [start_kernel, hv]
  | true => exact absurd (main hv t ht) hbad

/-- C7: an interrupt descriptor whose target task index is not below
`task_count` makes validation fail, so `start_kernel` aborts before
`safe_start_kernel` — where all allocation and table construction
lives — ever runs: no allocation occurs for any scratch buffer or
layout. -/
theorem claim_C7 (img : Image) (irq : Interrupt)
    (hmem : irq ∈ img.interrupts) (hbad : ¬ irq.task < img.tasks.length) :
    validate img = false ∧
    ∀ sizeTask alignTask sizeRT alignRT st,
      start_kernel img sizeTask alignTask sizeRT alignRT st = none := by
  have hv : validate img = false := by
    cases hv : validate img with
    | false => rfl
    | true =>
      exfalso
      simp only [validate, Bool.and_eq_true, List.all_eq_true] at hv
      obtain ⟨-, hirqs⟩ := hv
      have := hirqs irq hmem
      rw [decide_eq_true_eq] at this
      exact hbad this
  exact ⟨hv, fun _ _ _ _ _ => by simp [start_kernel, hv]⟩

/-- A successful `start_kernel` produces exactly the task table built
by zipping the `gimme_n` task values with their descriptors and
resolving each region table. -/
theorem start_kernel_tasks_eq (img : Image)
    (sizeTask alignTask sizeRT alignRT : Nat) (st st' : BumpPointer)
    (ts : List Task)
    (h : start_kernel img sizeTask alignTask sizeRT alignRT st = some (ts, st')) :
    ts = (((List.range img.tasks.length).map (mkTaskInit img.tasks)).zip
        img.tasks).map (resolvedTask img.regions) := by
  by_cases hv : validate img
  · rw [start_kernel, if_pos hv] at h
    unfold safe_start_kernel at h
    cases hg : BumpPointer.gimme_n_init st img.tasks.length sizeTask alignTask
        (mkTaskInit img.tasks) with
    | none => rw [hg] at h; simp at h
    | some q =>
      obtain ⟨a, tasks0, st1⟩ := q
      rw [hg] at h
      simp only at h
      obtain ⟨hvals, -⟩ := gimme_n_init_some hg
      subst hvals
      exact resolveLoop_eq img.regions sizeRT alignRT _ st1 ts st' h
  · rw [start_kernel, if_neg hv] at h
    simp at h

/-- Element-level view of a successful `start_kernel`: the table has
one entry per descriptor, and entry `k` is the task built from
descriptor `k` with its region table resolved. -/
theorem start_kernel_task_getD (img : Image)
    (sizeTask alignTask sizeRT alignRT : Nat) (st st' : BumpPointer)
    (ts : List Task)
    (h : start_kernel img sizeTask alignTask sizeRT alignRT st = some (ts, st')) :
    ts.length = img.tasks.length ∧
    ∀ k, k < img.tasks.length →
      ts.getD k default =
        resolvedTask img.regions (mkTaskInit img.tasks k, img.tasks.getD k default) := by
  have hts := start_kernel_tasks_eq img sizeTask alignTask sizeRT alignRT
    st st' ts h
  subst hts
  constructor
  · simp
  · intro k hk
    have hzl : k < (((List.range img.tasks.length).map
        (mkTaskInit img.tasks)).zip img.tasks).length := by
      simp [hk]
    have hml : k < ((((List.range img.tasks.length).map
        (mkTaskInit img.tasks)).zip img.tasks).map
          (resolvedTask img.regions)).length := by
      simp [hk]
    rw [List.getD_eq_getElem _ default hml, List.getElem_map,
      List.getElem_zip, List.getElem_map, List.getElem_range,
      List.getD_eq_getElem _ default hk]

/-- C2: after a successful bootstrap the task table has exactly
`task_count` entries; each task's region table has exactly
`REGIONS_PER_TASK` entries whose element `i` is the region descriptor
at the index stored in slot `i` of that task's region-index array —
resolution preserves order. -/
theorem claim_C2 (img : Image) (sizeTask alignTask sizeRT alignRT : Nat)
    (st st' : BumpPointer) (ts : List Task)
    (h : start_kernel img sizeTask alignTask sizeRT alignRT st = some (ts, st')) :
    ts.length = img.tasks.length ∧
    ∀ k, k < ts.length →
      (ts.getD k default).region_table.length = REGIONS_PER_TASK ∧
      ∀ i, i < REGIONS_PER_TASK →
        (ts.getD k default).region_table.getD i default =
          img.regions.getD ((img.tasks.getD k default).regions.getD i 0) default := by
  obtain ⟨hlen, hget⟩ := start_kernel_task_getD img sizeTask alignTask
    sizeRT alignRT st st' ts h
  refine ⟨hlen, ?_⟩
  intro k hk
  rw [hlen] at hk
  rw [hget k hk]
  constructor
  · simp [resolvedTask]
  · intro i hi
    simp only [resolvedTask]
    have hil : i < ((List.range REGIONS_PER_TASK).map
        (regionTableInit img.regions (img.tasks.getD k default))).length := by
      simp [hi]
    rw [List.getD_eq_getElem _ default hil, List.getElem_map,
      List.getElem_range]
    rfl

/-- C3: a constructed task is in the Runnable state exactly when its
descriptor's "start at boot" flag is set; and when the flag is clear
its state is exactly the default non-runnable state (so in particular
never a fault state). -/
theorem claim_C3 (img : Image) (sizeTask alignTask sizeRT alignRT : Nat)
    (st st' : BumpPointer) (ts : List Task)
    (h : start_kernel img sizeTask alignTask sizeRT alignRT st = some (ts, st')) :
    ∀ k, k < ts.length →
      ((ts.getD k default).state = TaskState.Healthy SchedState.Runnable ↔
        (img.tasks.getD k default).flags.start_at_boot = true) ∧
      ((img.tasks.getD k default).flags.start_at_boot = false →
        (ts.getD k default).state = default) := by
  obtain ⟨hlen, hget⟩ := start_kernel_task_getD img sizeTask alignTask
    sizeRT alignRT st st' ts h
  intro k hk
  rw [hlen] at hk
  rw [hget k hk]
  simp only [resolvedTask, mkTaskInit]
  cases hb : (img.tasks.getD k default).flags.start_at_boot with
  | true => simp [hb]
  | false =>
    have hd : (default : TaskState) = TaskState.Healthy SchedState.Stopped := rfl
    simp [hb, hd]

/-- C8: a constructed task's priority equals its descriptor's priority
field; the `as u8` cast is lossless because the descriptor priority is
a small unsigned value (below 256). -/
theorem claim_C8 (img : Image) (sizeTask alignTask sizeRT alignRT : Nat)
    (st st' : BumpPointer) (ts : List Task) (k : Nat)
    (h : start_kernel img sizeTask alignTask sizeRT alignRT st = some (ts, st'))
    (hk : k < ts.length)
    (hp : (img.tasks.getD k default).priority < 256) :
    (ts.getD k default).priority = (img.tasks.getD k default).priority := by
  obtain ⟨hlen, hget⟩ := start_kernel_task_getD img sizeTask alignTask
    sizeRT alignRT st st' ts h
  rw [hlen] at hk
  rw [hget k hk]
  simp only [resolvedTask, mkTaskInit]
  exact Nat.mod_eq_of_lt hp

/-- C6 counterexample: on a two-task table the recorded last-run
argument of the single selection call is `1` (`task_count - 1`), not
the one-past-the-last-task index `2` the claim also describes, so the
claim as stated is false. -/
theorem claim_C6_counterexample :
    (handoff (fun _ _ => 0) [default, default]).map HandoffResult.select_args =
      some [1] ∧
    ([1] : List Nat) ≠ [([default, default] : List Task).length] := by
  decide

/-- C6 (amended): during handoff the selection function is invoked
exactly once, with the task table and last-run index `task_count - 1`
(the index of the last task — not an index one-past-the-last task),
and the task at the returned index is the one given memory protection
and started in user mode. -/
theorem claim_C6 (select : Nat → List Task → Nat) (tasks : List Task)
    (hne : tasks ≠ [])
    (hsel : select (tasks.length - 1) tasks < tasks.length) :
    handoff select tasks =
      some ⟨[tasks.length - 1], select (tasks.length - 1) tasks,
        tasks.getD (select (tasks.length - 1) tasks) default,
        tasks.getD (select (tasks.length - 1) tasks) default⟩ := by
  simp only [handoff]
  rw [if_neg (fun h0 => hne (List.length_eq_zero.mp h0)), if_pos hsel]

/-- C6 witness: a concrete two-task handoff where selection returns
index 0. -/
theorem claim_C6_witness :
    ([default, default] : List Task) ≠ [] ∧
    handoff (fun _ _ => 0) [default, default] =
      some ⟨[1], 0, default, default⟩ :=
  ⟨by decide, claim_C6 (fun _ _ => 0) [default, default] (by decide) (by decide)⟩

/-- C9: an image with no tasks can pass validation, and a successful
`start_kernel` then yields an empty task table, on which the handoff
aborts: `tasks.len() - 1` is a `usize` subtraction that underflows
(a panic with overflow checks; without them the wrapped sentinel
makes `switch_to_user`'s indexing of the empty table panic), so boot
can never complete even though validation accepts the image. -/
theorem claim_C9 (img : Image) (sizeTask alignTask sizeRT alignRT : Nat)
    (st st' : BumpPointer) (ts : List Task)
    (select : Nat → List Task → Nat)
    (_hv : validate img = true) (h0 : img.tasks = [])
    (h : start_kernel img sizeTask alignTask sizeRT alignRT st = some (ts, st')) :
    ts = [] ∧ handoff select ts = none ∧
    full_boot img sizeTask alignTask sizeRT alignRT st select = none := by
  have hts := start_kernel_tasks_eq img sizeTask alignTask sizeRT alignRT
    st st' ts h
  rw [h0] at hts
  simp only [List.length_nil, List.range_zero, List.map_nil,
    List.zip_nil_right, List.zip_nil_left] at hts
  subst hts
  refine ⟨rfl, by simp [handoff], ?_⟩
  simp only [full_boot, h]
  simp [handoff]

/-! ## Concrete fixtures used by the witnesses -/

/-- An executable flash region `[4096, 4096+256)`. -/
def regionX : RegionDesc := ⟨4096, 256, ⟨false, false, true, false⟩, 0⟩

/-- A read-write RAM region `[8192, 8192+256)`. -/
def regionRW : RegionDesc := ⟨8192, 256, ⟨true, true, false, false⟩, 0⟩

/-- A task with entry point inside `regionX` and stack pointer at the
exact top of `regionRW`, starting at boot. -/
def task0 : TaskDesc := ⟨1, ⟨true, false⟩, 4100, 8448, [0, 1, 1, 1, 1, 1, 1, 1]⟩

/-- A well-formed one-task image that passes validation. -/
def img0 : Image :=
  ⟨CURRENT_APP_MAGIC, 0, List.replicate 12 0, [task0], [regionX, regionRW], []⟩

/-- The runtime task the bootstrap builds from `task0`. -/
def ts0 : List Task :=
  [⟨1, TaskState.Healthy SchedState.Runnable, task0, 0, 0, 0,
    [regionX, regionRW, regionRW, regionRW, regionRW, regionRW, regionRW,
      regionRW]⟩]

/-- A validating image with no tasks, no regions and no interrupts. -/
def imgEmpty : Image :=
  ⟨CURRENT_APP_MAGIC, 0, List.replicate 12 0, [], [], []⟩

/-- `img0` with one interrupt descriptor naming task index 5 although
`task_count = 1`. -/
def imgBadIrq : Image :=
  ⟨CURRENT_APP_MAGIC, 0, List.replicate 12 0, [task0], [regionX, regionRW],
    [⟨33, 5⟩]⟩

/-- C1 witness: `img0` is well-formed, validates, and its task indeed
has covered entry point and stack pointer. -/
theorem claim_C1_witness :
    img0.wf ∧ validate img0 = true ∧
    (entry_point_covered img0 task0 ∧ stack_covered img0 task0) :=
  ⟨by decide, by decide,
    (claim_C1 img0 (by decide)).1 (by decide) task0 (by decide)⟩

/-- C7 witness: the concrete scenario of the claim — an interrupt
naming task 5 with `task_count = 1` is rejected. -/
theorem claim_C7_witness :
    (⟨33, 5⟩ : Interrupt) ∈ imgBadIrq.interrupts ∧
    ¬ (⟨33, 5⟩ : Interrupt).task < imgBadIrq.tasks.length ∧
    validate imgBadIrq = false :=
  ⟨by decide, by decide,
    (claim_C7 imgBadIrq ⟨33, 5⟩ (by decide) (by decide)).1⟩

/-- C9 witness: `imgEmpty` validates, bootstraps to an empty table,
and the handoff then aborts. -/
theorem claim_C9_witness :
    (validate imgEmpty = true ∧ imgEmpty.tasks = [] ∧
      start_kernel imgEmpty 4 1 4 1 ⟨0, 16⟩ = some ([], ⟨0, 16⟩)) ∧
    (handoff (fun _ _ => 0) [] = none ∧
      full_boot imgEmpty 4 1 4 1 ⟨0, 16⟩ (fun _ _ => 0) = none) :=
  ⟨⟨by decide, rfl, by decide⟩,
    (claim_C9 imgEmpty 4 1 4 1 ⟨0, 16⟩ ⟨0, 16⟩ [] (fun _ _ => 0)
      (by decide) rfl (by decide)).2⟩

/-- C2 witness: bootstrapping `img0` from a 1024-byte scratch buffer
yields exactly `ts0`, with the element-wise region-table property. -/
theorem claim_C2_witness :
    start_kernel img0 32 4 4 4 ⟨0, 1024⟩ = some (ts0, ⟨64, 1024⟩) ∧
    (ts0.length = img0.tasks.length ∧
      ∀ k, k < ts0.length →
        (ts0.getD k default).region_table.length = REGIONS_PER_TASK ∧
        ∀ i, i < REGIONS_PER_TASK →
          (ts0.getD k default).region_table.getD i default =
            img0.regions.getD ((img0.tasks.getD k default).regions.getD i 0)
              default) :=
  ⟨by decide,
    claim_C2 img0 32 4 4 4 ⟨0, 1024⟩ ⟨64, 1024⟩ ts0 (by decide)⟩

/-- C3 witness: the single task of `img0` starts at boot and is indeed
Runnable after construction (and would be in the default state were
the flag clear). -/
theorem claim_C3_witness :
    start_kernel img0 32 4 4 4 ⟨0, 1024⟩ = some (ts0, ⟨64, 1024⟩) ∧
    ∀ k, k < ts0.length →
      ((ts0.getD k default).state = TaskState.Healthy SchedState.Runnable ↔
        (img0.tasks.getD k default).flags.start_at_boot = true) ∧
      ((img0.tasks.getD k default).flags.start_at_boot = false →
        (ts0.getD k default).state = default) :=
  ⟨by decide,
    claim_C3 img0 32 4 4 4 ⟨0, 1024⟩ ⟨64, 1024⟩ ts0 (by decide)⟩

/-- C8 witness: the constructed task's priority equals `task0`'s
priority field. -/
theorem claim_C8_witness :
    ((0 : Nat) < ts0.length ∧ (img0.tasks.getD 0 default).priority < 256) ∧
    (ts0.getD 0 default).priority = (img0.tasks.getD 0 default).priority :=
  ⟨⟨by decide, by decide⟩,
    claim_C8 img0 32 4 4 4 ⟨0, 1024⟩ ⟨64, 1024⟩ ts0 0 (by decide) (by decide)
      (by decide)⟩

end Startup
